import Mathlib

/-!
Verification development for heketi's `apps/glusterfs/node_entry.go`
(`NodeEntry` and its lifecycle against a boltdb transaction).

Shallow embedding conventions:
* Go `uint64` counters are `Nat` with arithmetic taken modulo `W = 2^64`
  (`uadd` / `usub` below mirror Go's wrapping `+` / `-` on `uint64`).
* `sort.StringSlice` becomes `List String`; Go's `sort.Sort` on a string
  slice is modelled by `List.insertionSort (· ≤ ·)` under the lexicographic
  `LinearOrder String`.
* gob serialization is modelled by the wire record `NodeEntryGob` wrapped in
  `GobBytes`: gob omits zero-value fields, so a nil or empty `Devices` slice
  is absent from the stream (`Option.none`); undecodable byte strings are
  the constructor `GobBytes.bad`.
* A bolt transaction is `Tx`: the node bucket either exists (an association
  list from keys to stored bytes) or is absent.
* Methods that mutate their receiver return the updated record; methods that
  mutate the store return the updated `Tx`.  Fallible operations return
  `Except GErr _` (or pair an `Option GErr` with the resulting state when
  the state survives a failure).
-/

/-- `2^64`, the modulus of Go's `uint64` arithmetic. -/
def W : Nat := 18446744073709551616

/-- Wrapping `uint64` addition: Go's `a + b` on `uint64`. -/
def uadd (a b : Nat) : Nat := (a + b) % W

/-- Wrapping `uint64` subtraction: Go's `a - b` on `uint64`
(for `a b < W` this is `(a + W - b) % W`). -/
def usub (a b : Nat) : Nat := (a + (W - b % W)) % W

/-- Modelled from the spec: the capacity triple `{Total, Used, Free}` of
unsigned byte counts (the Go struct lives in `structs.go`, outside `src/`). -/
structure StorageSize where
  Total : Nat
  Used : Nat
  Free : Nat
deriving DecidableEq, Repr

/-- Modelled from the spec: the node information record (`structs.go` is
outside `src/`): identifier, owning cluster, hostnames, placement zone and
the storage counters. -/
structure NodeInfo where
  Id : String
  ClusterId : String
  Hostnames : List String
  Zone : Int
  Storage : StorageSize
deriving DecidableEq, Repr

/-- `NodeEntry` from `node_entry.go`: the node info plus the ordered
device-identifier sequence (`sort.StringSlice`). -/
structure NodeEntry where
  Info : NodeInfo
  Devices : List String
deriving DecidableEq, Repr

/-- Error values visible in `node_entry.go`: the shared sentinels
`ErrNotFound` and `ErrConflict`, fresh bucket-access errors (carrying their
message), and gob decode failures that `Unmarshal` passes through. -/
inductive GErr where
  | notFound
  | conflict
  | bucketAccess (msg : String)
  | decodeFail
deriving DecidableEq, Repr

/-- `NewNodeEntry`: empty record with `Devices` initialized to an empty
(non-nil) slice. -/
def NewNodeEntry : NodeEntry :=
  { Info := { Id := "", ClusterId := "", Hostnames := [], Zone := 0,
              Storage := { Total := 0, Used := 0, Free := 0 } },
    Devices := [] }

/-- `NodeEntry.StorageAdd`: `Free += amount; Total += amount`
(wrapping `uint64` arithmetic). -/
def NodeEntry.StorageAdd (n : NodeEntry) (amount : Nat) : NodeEntry :=
  { n with Info := { n.Info with Storage :=
      { n.Info.Storage with
          Free := uadd n.Info.Storage.Free amount,
          Total := uadd n.Info.Storage.Total amount } } }

/-- `NodeEntry.StorageAllocate`: `Free -= amount; Used += amount`. -/
def NodeEntry.StorageAllocate (n : NodeEntry) (amount : Nat) : NodeEntry :=
  { n with Info := { n.Info with Storage :=
      { n.Info.Storage with
          Free := usub n.Info.Storage.Free amount,
          Used := uadd n.Info.Storage.Used amount } } }

/-- `NodeEntry.StorageFree`: `Free += amount; Used -= amount`. -/
def NodeEntry.StorageFree (n : NodeEntry) (amount : Nat) : NodeEntry :=
  { n with Info := { n.Info with Storage :=
      { n.Info.Storage with
          Free := uadd n.Info.Storage.Free amount,
          Used := usub n.Info.Storage.Used amount } } }

/-- `NodeEntry.StorageDelete`: `Total -= amount; Free -= amount`. -/
def NodeEntry.StorageDelete (n : NodeEntry) (amount : Nat) : NodeEntry :=
  { n with Info := { n.Info with Storage :=
      { n.Info.Storage with
          Total := usub n.Info.Storage.Total amount,
          Free := usub n.Info.Storage.Free amount } } }

/-- `NodeEntry.DeviceAdd`: append the id and re-sort the slice
(`n.Devices = append(n.Devices, id); n.Devices.Sort()`).  The
`godbc.Require` assertion that `id` is not already present is a caller
contract, not part of the function's effect. -/
def NodeEntry.DeviceAdd (n : NodeEntry) (id : String) : NodeEntry :=
  { n with Devices := List.insertionSort (· ≤ ·) (n.Devices ++ [id]) }

/-- Modelled from the spec: `utils.SortedStringsDelete` (the `utils`
package is outside `src/`): removes `id` from the sorted slice if present,
preserving sortedness; removing an absent id is a no-op. -/
def SortedStringsDelete (xs : List String) (id : String) : List String :=
  xs.erase id

/-- `NodeEntry.DeviceDelete`: `n.Devices = utils.SortedStringsDelete(n.Devices, id)`. -/
def NodeEntry.DeviceDelete (n : NodeEntry) (id : String) : NodeEntry :=
  { n with Devices := SortedStringsDelete n.Devices id }

/-- The gob wire form of a `NodeEntry`: gob omits fields at their zero
value, so a nil or empty `Devices` slice is not transmitted (`none`). -/
structure NodeEntryGob where
  Info : NodeInfo
  Devices : Option (List String)
deriving DecidableEq, Repr

/-- A byte string as far as `Unmarshal` can observe it: either a
well-formed gob encoding of a node entry, or bytes gob fails to decode. -/
inductive GobBytes where
  | good (w : NodeEntryGob)
  | bad
deriving DecidableEq, Repr

/-- `NodeEntry.Marshal`: gob-encode the whole struct.  An empty `Devices`
slice is a gob zero value and is omitted from the stream; encoding a
`NodeEntry` never fails. -/
def NodeEntry.Marshal (n : NodeEntry) : GobBytes :=
  .good { Info := n.Info,
          Devices := if n.Devices.isEmpty then none else some n.Devices }

/-- `NodeEntry.Unmarshal`: gob-decode into a fresh entry, then repair a
nil `Devices` slice into an empty one ("Make sure to setup arrays if nil").
A decode error is returned as-is. -/
def NodeEntry.Unmarshal (buffer : GobBytes) : Except GErr NodeEntry :=
  match buffer with
  | .bad => .error .decodeFail
  | .good w => .ok { Info := w.Info, Devices := w.Devices.getD [] }

/-- The node bucket: boltdb key/value pairs with unique keys. -/
abbrev Bucket : Type := List (String × GobBytes)

/-- A bolt transaction as `node_entry.go` sees it: the node bucket
(`BOLTDB_BUCKET_NODE`) either exists or `tx.Bucket` returns nil. -/
structure Tx where
  nodeBucket : Option Bucket

/-- `b.Get(key)`: the stored value, or nil when the key is absent. -/
def Bucket.get (b : Bucket) (key : String) : Option GobBytes :=
  List.lookup key b

/-- `b.Delete(key)`: remove the key; bolt's `Delete` succeeds even when the
key is absent. -/
def Bucket.del (b : Bucket) (key : String) : Bucket :=
  List.filter (fun p => p.1 != key) b

/-- `b.Put(key, value)`: insert or replace the value under `key`. -/
def Bucket.put (b : Bucket) (key : String) (v : GobBytes) : Bucket :=
  (key, v) :: Bucket.del b key

/-- `NewNodeEntryFromId`: nil bucket is a fresh "Unable to create node
entry" error; a missing value is `ErrNotFound`; otherwise the stored bytes
are unmarshalled (decode errors returned as-is). -/
def NewNodeEntryFromId (tx : Tx) (id : String) : Except GErr NodeEntry :=
  match tx.nodeBucket with
  | none => .error (.bucketAccess "Unable to create node entry")
  | some b =>
    match Bucket.get b id with
    | none => .error .notFound
    | some val => NodeEntry.Unmarshal val

/-- `NodeEntry.Save`: marshal the record and put it under its id.  Bucket
absence is an error; marshalling and bolt's `Put` are modelled as always
succeeding (gob encoding of this struct does not fail). -/
def NodeEntry.Save (n : NodeEntry) (tx : Tx) : Option GErr × Tx :=
  match tx.nodeBucket with
  | none => (some (.bucketAccess "Unable to create node entry"), tx)
  | some b => (none, { nodeBucket := some (Bucket.put b n.Info.Id n.Marshal) })

/-- `NodeEntry.Delete`: a record that still has devices is a conflict
(checked before the store is touched); otherwise the key is deleted from
the node bucket.  The receiver itself is never mutated. -/
def NodeEntry.Delete (n : NodeEntry) (tx : Tx) : Option GErr × Tx :=
  if n.Devices.length > 0 then
    (some .conflict, tx)
  else
    match tx.nodeBucket with
    | none => (some (.bucketAccess "Unable to access database"), tx)
    | some b => (none, { nodeBucket := some (Bucket.del b n.Info.Id) })

/-- The shape of `NodeInfoResponse`, polymorphic in the external
collaborator's device view type `R` (`DeviceInfoResponse` lives outside
`src/`). -/
structure NodeInfoResponse (R : Type) where
  ClusterId : String
  Hostnames : List String
  Id : String
  Storage : StorageSize
  Zone : Int
  DevicesInfo : List R
deriving DecidableEq, Repr

/-- The device-resolution loop of `NewInfoReponse`: for each device id in
order, `NewDeviceEntryFromId` (here the collaborator `f`, with the
transaction already applied) then `device.NewInfoResponse` (collaborator
`g`); the first error aborts the loop, a success is appended to the
accumulated views. -/
def resolveDevices {D R : Type} (f : String → Except GErr D)
    (g : D → Except GErr R) : List String → List R → Except GErr (List R)
  | [], acc => .ok acc
  | id :: rest, acc =>
    match f id with
    | .error e => .error e
    | .ok device =>
      match g device with
      | .error e => .error e
      | .ok driveinfo => resolveDevices f g rest (acc ++ [driveinfo])

/-- `NodeEntry.NewInfoReponse` (sic): copy `ClusterId`, `Hostnames`, `Id`,
`Storage`, `Zone`, start `DevicesInfo` empty, then run the resolution loop
over `n.Devices`; any error is returned with a nil response. -/
def NodeEntry.NewInfoReponse {D R : Type} (f : String → Except GErr D)
    (g : D → Except GErr R) (n : NodeEntry) :
    Except GErr (NodeInfoResponse R) :=
  match resolveDevices f g n.Devices [] with
  | .error e => .error e
  | .ok views =>
    .ok { ClusterId := n.Info.ClusterId, Hostnames := n.Info.Hostnames,
          Id := n.Info.Id, Storage := n.Info.Storage, Zone := n.Info.Zone,
          DevicesInfo := views }

/-- Spec-side restatement of the projection contract for `NewInfoReponse`:
resolve each identifier in stored order, one view per identifier, aborting
on the first failure (compare with `resolveDevices`, which is the loop as
written in the code). -/
def resolveDevicesSpec {D R : Type} (f : String → Except GErr D)
    (g : D → Except GErr R) : List String → Except GErr (List R)
  | [] => .ok []
  | id :: rest =>
    (f id).bind fun d => (g d).bind fun r =>
      (resolveDevicesSpec f g rest).map fun rs => r :: rs

/-- One step of a storage-accounting call sequence. -/
inductive StorageOp where
  | add (amount : Nat)
  | allocate (amount : Nat)
  | free (amount : Nat)
  | delete (amount : Nat)
deriving DecidableEq, Repr

/-- Apply one storage-accounting call. -/
def applyStorageOp (n : NodeEntry) : StorageOp → NodeEntry
  | .add a => n.StorageAdd a
  | .allocate a => n.StorageAllocate a
  | .free a => n.StorageFree a
  | .delete a => n.StorageDelete a

/-- Apply a sequence of storage-accounting calls, left to right. -/
def applyStorageOps (n : NodeEntry) (ops : List StorageOp) : NodeEntry :=
  ops.foldl applyStorageOp n

/-- The "matched amounts" discipline of one call, as the claim states it:
every amount is a `uint64` value, and each allocate/free/delete releases or
retires only capacity previously added/allocated, so no counter
underflows.  (An `add` cannot underflow.) -/
def storageOpMatched (s : StorageSize) : StorageOp → Bool
  | .add a => decide (a < W)
  | .allocate a => decide (a < W) && decide (a ≤ s.Free)
  | .free a => decide (a < W) && decide (a ≤ s.Used)
  | .delete a => decide (a < W) && decide (a ≤ s.Free) && decide (a ≤ s.Total)

/-- A whole call sequence obeys the matched-amounts discipline, each call
judged against the counters it actually sees. -/
def storageOpsMatched (n : NodeEntry) : List StorageOp → Bool
  | [] => true
  | op :: rest =>
    storageOpMatched n.Info.Storage op &&
      storageOpsMatched (applyStorageOp n op) rest

/-- The matched-amounts discipline strengthened with overflow-freedom:
an `add` must also keep `Total` (and hence `Free`) below `2^64`. -/
def storageOpSafe (s : StorageSize) : StorageOp → Bool
  | .add a => decide (s.Total + a < W)
  | op => storageOpMatched s op

/-- A whole call sequence obeys the strengthened discipline. -/
def storageOpsSafe (n : NodeEntry) : List StorageOp → Bool
  | [] => true
  | op :: rest =>
    storageOpSafe n.Info.Storage op &&
      storageOpsSafe (applyStorageOp n op) rest

/-- The capacity invariant: `Total == Used + Free` (exact). -/
def storageInv (s : StorageSize) : Prop := s.Total = s.Used + s.Free

/-- All three counters are `uint64` values. -/
def storageInRange (s : StorageSize) : Prop :=
  s.Total < W ∧ s.Used < W ∧ s.Free < W

instance (s : StorageSize) : Decidable (storageInv s) := by
  unfold storageInv; infer_instance

instance (s : StorageSize) : Decidable (storageInRange s) := by
  unfold storageInRange; infer_instance

/-- One step of a device-set call sequence. -/
inductive DevOp where
  | add (id : String)
  | del (id : String)
deriving DecidableEq, Repr

/-- Apply one device-set call. -/
def applyDevOp (n : NodeEntry) : DevOp → NodeEntry
  | .add id => n.DeviceAdd id
  | .del id => n.DeviceDelete id

/-- Apply a sequence of device-set calls, left to right. -/
def applyDevOps (n : NodeEntry) (ops : List DevOp) : NodeEntry :=
  ops.foldl applyDevOp n

/-- The add precondition of the claim: each `DeviceAdd` argument is not
already present in `Devices` at the time of the call. -/
def devOpsOk (n : NodeEntry) : List DevOp → Bool
  | [] => true
  | .add id :: rest =>
    !(n.Devices.contains id) && devOpsOk (n.DeviceAdd id) rest
  | .del id :: rest => devOpsOk (n.DeviceDelete id) rest

/-! ## Helper lemmas -/

/-- One safe storage-accounting call preserves the exact invariant and
keeps the counters in `uint64` range. -/
theorem storage_step_safe (n : NodeEntry) (op : StorageOp)
    (hinv : storageInv n.Info.Storage) (hrange : storageInRange n.Info.Storage)
    (hok : storageOpSafe n.Info.Storage op = true) :
    storageInv (applyStorageOp n op).Info.Storage ∧
      storageInRange (applyStorageOp n op).Info.Storage := by
  obtain ⟨h1, h2, h3⟩ := hrange
  cases op <;>
    simp only [applyStorageOp, NodeEntry.StorageAdd, NodeEntry.StorageAllocate,
      NodeEntry.StorageFree, NodeEntry.StorageDelete, storageOpSafe,
      storageOpMatched, storageInv, storageInRange, uadd, usub, W,
      Bool.and_eq_true, decide_eq_true_eq] at * <;>
    omega

/-- A safe storage-accounting call sequence preserves the exact invariant
and the `uint64` range of the counters. -/
theorem storage_run_safe : ∀ (ops : List StorageOp) (n : NodeEntry),
    storageInv n.Info.Storage → storageInRange n.Info.Storage →
    storageOpsSafe n ops = true →
    storageInv (applyStorageOps n ops).Info.Storage ∧
      storageInRange (applyStorageOps n ops).Info.Storage
  | [], n, hinv, hrange, _ => by
    simpa [applyStorageOps] using And.intro hinv hrange
  | op :: rest, n, hinv, hrange, hok => by
    simp only [storageOpsSafe, Bool.and_eq_true] at hok
    have hstep := storage_step_safe n op hinv hrange hok.1
    have htail := storage_run_safe rest (applyStorageOp n op) hstep.1 hstep.2 hok.2
    simpa [applyStorageOps] using htail

/-! ## Claims -/

/-- Claim C1 (amended): for every record in which `Total == Used + Free`
(all three counters `uint64` values), any sequence of `StorageAdd`,
`StorageAllocate`, `StorageFree`, `StorageDelete` calls with matched
amounts — no counter underflows, and additionally no `StorageAdd`
overflows `Total` past `2^64` — leaves the record satisfying
`Total == Used + Free`. -/
theorem node_capacity_conservation (n : NodeEntry) (ops : List StorageOp)
    (hinv : storageInv n.Info.Storage) (hrange : storageInRange n.Info.Storage)
    (hok : storageOpsSafe n ops = true) :
    storageInv (applyStorageOps n ops).Info.Storage :=
  (storage_run_safe ops n hinv hrange hok).1

/-- Claim C1, counterexample to the claim as stated: starting from the
`uint64` record `{Total := 1, Used := 1, Free := 0}` (which satisfies
`Total == Used + Free`), the single call `StorageAdd (2^64 - 1)` obeys the
matched-amounts discipline (an add never underflows) yet wraps `Total`
to `0` while `Used + Free` becomes `2^64`, breaking the invariant. -/
theorem node_capacity_conservation_cex :
    storageInv (NodeEntry.mk (NodeInfo.mk "n" "c" [] 0 (StorageSize.mk 1 1 0)) []).Info.Storage ∧
    storageInRange (NodeEntry.mk (NodeInfo.mk "n" "c" [] 0 (StorageSize.mk 1 1 0)) []).Info.Storage ∧
    storageOpsMatched (NodeEntry.mk (NodeInfo.mk "n" "c" [] 0 (StorageSize.mk 1 1 0)) [])
      [StorageOp.add (W - 1)] = true ∧
    ¬ storageInv (applyStorageOps
        (NodeEntry.mk (NodeInfo.mk "n" "c" [] 0 (StorageSize.mk 1 1 0)) [])
        [StorageOp.add (W - 1)]).Info.Storage := by
  refine ⟨by decide, by decide, by decide, by decide⟩

/-- Claim C1, witness: a concrete run `add 5; allocate 3; free 1; delete 2`
from `{Total := 10, Used := 4, Free := 6}` satisfies the hypotheses of
`node_capacity_conservation`, and the invariant indeed holds afterwards. -/
theorem node_capacity_conservation_witness :
    storageInv (NodeEntry.mk (NodeInfo.mk "n1" "c1" ["h1"] 1 (StorageSize.mk 10 4 6)) []).Info.Storage ∧
    storageInRange (NodeEntry.mk (NodeInfo.mk "n1" "c1" ["h1"] 1 (StorageSize.mk 10 4 6)) []).Info.Storage ∧
    storageOpsSafe (NodeEntry.mk (NodeInfo.mk "n1" "c1" ["h1"] 1 (StorageSize.mk 10 4 6)) [])
      [StorageOp.add 5, StorageOp.allocate 3, StorageOp.free 1, StorageOp.delete 2] = true ∧
    storageInv (applyStorageOps
      (NodeEntry.mk (NodeInfo.mk "n1" "c1" ["h1"] 1 (StorageSize.mk 10 4 6)) [])
      [StorageOp.add 5, StorageOp.allocate 3, StorageOp.free 1, StorageOp.delete 2]).Info.Storage :=
  ⟨by decide, by decide, by decide,
    node_capacity_conservation _ _ (by decide) (by decide) (by decide)⟩

/-- Claim C9: with `uint64` counters wrapping modulo `2^64`, each single
call `StorageAdd n`, `StorageAllocate n`, `StorageFree n`,
`StorageDelete n` preserves `Total ≡ Used + Free (mod 2^64)` for every
amount `n`, even with no matched-amounts hypothesis; and on underflow a
counter wraps to a huge value (here: allocating `1` from `Free = 0` leaves
`Free = 2^64 - 1`) instead of clamping at zero or signalling an error. -/
theorem storage_ops_mod_preserved (n : NodeEntry) (a : Nat)
    (h : n.Info.Storage.Total % W =
      (n.Info.Storage.Used + n.Info.Storage.Free) % W) :
    ((n.StorageAdd a).Info.Storage.Total % W =
      ((n.StorageAdd a).Info.Storage.Used + (n.StorageAdd a).Info.Storage.Free) % W) ∧
    ((n.StorageAllocate a).Info.Storage.Total % W =
      ((n.StorageAllocate a).Info.Storage.Used + (n.StorageAllocate a).Info.Storage.Free) % W) ∧
    ((n.StorageFree a).Info.Storage.Total % W =
      ((n.StorageFree a).Info.Storage.Used + (n.StorageFree a).Info.Storage.Free) % W) ∧
    ((n.StorageDelete a).Info.Storage.Total % W =
      ((n.StorageDelete a).Info.Storage.Used + (n.StorageDelete a).Info.Storage.Free) % W) ∧
    ((NodeEntry.mk (NodeInfo.mk "n" "c" [] 0 (StorageSize.mk 0 0 0)) []).StorageAllocate
        1).Info.Storage.Free = W - 1 := by
  refine ⟨?_, ?_, ?_, ?_, by decide⟩ <;>
    simp only [NodeEntry.StorageAdd, NodeEntry.StorageAllocate,
      NodeEntry.StorageFree, NodeEntry.StorageDelete, uadd, usub, W] at * <;>
    omega

/-- Claim C9, witness: the congruence hypothesis holds for the concrete
record `{Total := 3, Used := 1, Free := 2}` and is preserved by
`StorageAdd` with the (deliberately over-large) amount `2^64 + 5`. -/
theorem storage_ops_mod_preserved_witness :
    ((NodeEntry.mk (NodeInfo.mk "w" "c" [] 0 (StorageSize.mk 3 1 2)) []).Info.Storage.Total % W =
      ((NodeEntry.mk (NodeInfo.mk "w" "c" [] 0 (StorageSize.mk 3 1 2)) []).Info.Storage.Used +
        (NodeEntry.mk (NodeInfo.mk "w" "c" [] 0 (StorageSize.mk 3 1 2)) []).Info.Storage.Free) % W) ∧
    (((NodeEntry.mk (NodeInfo.mk "w" "c" [] 0 (StorageSize.mk 3 1 2)) []).StorageAdd
        (W + 5)).Info.Storage.Total % W =
      (((NodeEntry.mk (NodeInfo.mk "w" "c" [] 0 (StorageSize.mk 3 1 2)) []).StorageAdd
        (W + 5)).Info.Storage.Used +
       ((NodeEntry.mk (NodeInfo.mk "w" "c" [] 0 (StorageSize.mk 3 1 2)) []).StorageAdd
        (W + 5)).Info.Storage.Free) % W) :=
  ⟨by decide,
    (storage_ops_mod_preserved
      (NodeEntry.mk (NodeInfo.mk "w" "c" [] 0 (StorageSize.mk 3 1 2)) [])
      (W + 5) (by decide)).1⟩

/-- `DeviceAdd` of an id not already present preserves strict sortedness. -/
theorem deviceAdd_sorted (l : List String) (id : String)
    (hs : l.Sorted (· < ·)) (hm : id ∉ l) :
    (List.insertionSort (· ≤ ·) (l ++ [id])).Sorted (· < ·) := by
  have hle : (List.insertionSort (· ≤ ·) (l ++ [id])).Sorted (· ≤ ·) :=
    List.sorted_insertionSort _ _
  have hperm : List.Perm (List.insertionSort (· ≤ ·) (l ++ [id])) (l ++ [id]) :=
    List.perm_insertionSort _ _
  have hnd : (l ++ [id]).Nodup := by
    rw [List.nodup_append]
    exact ⟨hs.imp ne_of_lt, List.nodup_singleton id,
      fun a ha hb => by simp at hb; exact hm (hb ▸ ha)⟩
  exact hle.lt_of_le (hperm.nodup_iff.mpr hnd)

/-- `DeviceDelete` preserves strict sortedness. -/
theorem deviceDelete_sorted (l : List String) (id : String)
    (hs : l.Sorted (· < ·)) : (l.erase id).Sorted (· < ·) :=
  List.Pairwise.sublist (List.erase_sublist id l) hs

/-- A device-op sequence whose adds respect the not-already-present
precondition preserves strict sortedness of `Devices`. -/
theorem dev_run : ∀ (ops : List DevOp) (n : NodeEntry),
    n.Devices.Sorted (· < ·) → devOpsOk n ops = true →
    (applyDevOps n ops).Devices.Sorted (· < ·)
  | [], n, hs, _ => by simpa [applyDevOps] using hs
  | .add id :: rest, n, hs, hok => by
    simp only [devOpsOk, Bool.and_eq_true] at hok
    have hm : id ∉ n.Devices := by
      have := hok.1
      simp at this
      exact this
    have hs' : (n.DeviceAdd id).Devices.Sorted (· < ·) :=
      deviceAdd_sorted n.Devices id hs hm
    have := dev_run rest (n.DeviceAdd id) hs' hok.2
    simpa [applyDevOps] using this
  | .del id :: rest, n, hs, hok => by
    simp only [devOpsOk] at hok
    have hs' : (n.DeviceDelete id).Devices.Sorted (· < ·) :=
      deviceDelete_sorted n.Devices id hs
    have := dev_run rest (n.DeviceDelete id) hs' hok
    simpa [applyDevOps] using this

/-- Claim C2: for every record whose `Devices` sequence is strictly
ascending with no duplicates, any sequence of `DeviceAdd` / `DeviceDelete`
calls in which each `DeviceAdd` argument is not already present leaves
`Devices` strictly ascending with no duplicates. -/
theorem node_devices_sorted_unique (n : NodeEntry) (ops : List DevOp)
    (hs : n.Devices.Sorted (· < ·)) (hok : devOpsOk n ops = true) :
    (applyDevOps n ops).Devices.Sorted (· < ·) ∧
      (applyDevOps n ops).Devices.Nodup := by
  have h := dev_run ops n hs hok
  exact ⟨h, h.imp ne_of_lt⟩

/-- Claim C2, witness: starting from an empty device list, `DeviceAdd "d1"`
then `DeviceDelete "d0"` respects the precondition and yields the strictly
sorted, duplicate-free list `["d1"]`. -/
theorem node_devices_sorted_unique_witness :
    (NodeEntry.mk (NodeInfo.mk "n1" "c1" [] 0 (StorageSize.mk 0 0 0)) []).Devices.Sorted (· < ·) ∧
    devOpsOk (NodeEntry.mk (NodeInfo.mk "n1" "c1" [] 0 (StorageSize.mk 0 0 0)) [])
      [DevOp.add "d1", DevOp.del "d0"] = true ∧
    ((applyDevOps (NodeEntry.mk (NodeInfo.mk "n1" "c1" [] 0 (StorageSize.mk 0 0 0)) [])
        [DevOp.add "d1", DevOp.del "d0"]).Devices.Sorted (· < ·) ∧
      (applyDevOps (NodeEntry.mk (NodeInfo.mk "n1" "c1" [] 0 (StorageSize.mk 0 0 0)) [])
        [DevOp.add "d1", DevOp.del "d0"]).Devices.Nodup) :=
  ⟨by decide, by decide,
    node_devices_sorted_unique _ _ (by decide) (by decide)⟩

/-- Claim C3: serializing a valid record with `Marshal` and deserializing
the bytes with `Unmarshal` yields the record back; in particular a record
whose `Devices` field was encoded as nil/absent deserializes to one with
an empty `Devices` sequence. -/
theorem node_marshal_roundtrip :
    (∀ n : NodeEntry, NodeEntry.Unmarshal n.Marshal = Except.ok n) ∧
    (∀ info : NodeInfo,
      NodeEntry.Unmarshal (GobBytes.good (NodeEntryGob.mk info none)) =
        Except.ok (NodeEntry.mk info [])) := by
  constructor
  · intro n
    cases n with
    | mk info devs =>
      cases devs <;> simp [NodeEntry.Marshal, NodeEntry.Unmarshal]
  · intro info
    rfl

/-- Claim C5: `DeviceDelete id` for an id not present in `Devices` leaves
the record unchanged and signals no error (the operation returns nothing
and is a no-op, hence idempotent). -/
theorem deviceDelete_absent_noop (n : NodeEntry) (id : String)
    (h : id ∉ n.Devices) : n.DeviceDelete id = n := by
  cases n with
  | mk info devs =>
    simp [NodeEntry.DeviceDelete, SortedStringsDelete,
      List.erase_of_not_mem h]

/-- Claim C5, witness: deleting the absent id `"x"` from the concrete
record with `Devices = ["d1"]` leaves it unchanged. -/
theorem deviceDelete_absent_noop_witness :
    "x" ∉ (NodeEntry.mk (NodeInfo.mk "n1" "c1" [] 0 (StorageSize.mk 0 0 0)) ["d1"]).Devices ∧
    (NodeEntry.mk (NodeInfo.mk "n1" "c1" [] 0 (StorageSize.mk 0 0 0)) ["d1"]).DeviceDelete "x" =
      NodeEntry.mk (NodeInfo.mk "n1" "c1" [] 0 (StorageSize.mk 0 0 0)) ["d1"] :=
  ⟨by decide, deviceDelete_absent_noop _ "x" (by decide)⟩

/-- Claim C7: a successfully decoded byte sequence whose `Devices` field is
nil/absent unmarshals to a record with an empty `Devices` sequence; and
every record returned by `NewNodeEntryFromId` has its `Devices` obtained by
replacing an absent wire field with the empty sequence, so a loaded record
never has an absent `Devices` field. -/
theorem unmarshal_repairs_nil_devices :
    (∀ w : NodeEntryGob, w.Devices = none →
      NodeEntry.Unmarshal (GobBytes.good w) =
        Except.ok (NodeEntry.mk w.Info [])) ∧
    (∀ (tx : Tx) (id : String) (e : NodeEntry),
      NewNodeEntryFromId tx id = Except.ok e →
      ∃ (b : Bucket) (w : NodeEntryGob),
        tx.nodeBucket = some b ∧ Bucket.get b id = some (GobBytes.good w) ∧
          e = NodeEntry.mk w.Info (w.Devices.getD [])) := by
  constructor
  · intro w hw
    simp [NodeEntry.Unmarshal, hw]
  · intro tx id e he
    cases htx : tx.nodeBucket with
    | none => simp [NewNodeEntryFromId, htx] at he
    | some b =>
      cases hget : Bucket.get b id with
      | none => simp [NewNodeEntryFromId, htx, hget] at he
      | some val =>
        cases val with
        | bad => simp [NewNodeEntryFromId, NodeEntry.Unmarshal, htx, hget] at he
        | good w =>
          refine ⟨b, w, rfl, hget, ?_⟩
          simp [NewNodeEntryFromId, NodeEntry.Unmarshal, htx, hget] at he
          exact he.symm

/-- Claim C7, witness: a concrete wire record with absent `Devices`
unmarshals to an empty device list, and loading a concrete stored entry
yields a record whose `Devices` came from the nil-repair rule. -/
theorem unmarshal_repairs_nil_devices_witness :
    (NodeEntryGob.mk (NodeInfo.mk "n1" "c1" [] 0 (StorageSize.mk 0 0 0)) none).Devices = none ∧
    NodeEntry.Unmarshal (GobBytes.good
        (NodeEntryGob.mk (NodeInfo.mk "n1" "c1" [] 0 (StorageSize.mk 0 0 0)) none)) =
      Except.ok (NodeEntry.mk
        (NodeEntryGob.mk (NodeInfo.mk "n1" "c1" [] 0 (StorageSize.mk 0 0 0)) none).Info []) :=
  ⟨by decide,
    unmarshal_repairs_nil_devices.1
      (NodeEntryGob.mk (NodeInfo.mk "n1" "c1" [] 0 (StorageSize.mk 0 0 0)) none) (by decide)⟩

/-- Claim C4: `Delete` on a record with a non-empty `Devices` sequence
returns the Conflict error before touching the store, so the transaction
(and with it the persisted record under the node's identifier) is
unchanged; the in-memory record is not modified either, since `Delete`
only reads the receiver. -/
theorem node_delete_conflict (n : NodeEntry) (tx : Tx)
    (h : n.Devices ≠ []) :
    n.Delete tx = (some GErr.conflict, tx) := by
  have hlen : n.Devices.length > 0 := List.length_pos.mpr h
  simp [NodeEntry.Delete, hlen]

/-- Claim C4, witness: deleting a concrete record that still holds the
device `"d1"`, against a transaction whose bucket stores that record,
fails with Conflict and leaves the transaction unchanged. -/
theorem node_delete_conflict_witness :
    (NodeEntry.mk (NodeInfo.mk "n1" "c1" [] 0 (StorageSize.mk 0 0 0)) ["d1"]).Devices ≠ [] ∧
    (NodeEntry.mk (NodeInfo.mk "n1" "c1" [] 0 (StorageSize.mk 0 0 0)) ["d1"]).Delete
        (Tx.mk (some [("n1",
          (NodeEntry.mk (NodeInfo.mk "n1" "c1" [] 0 (StorageSize.mk 0 0 0)) ["d1"]).Marshal)])) =
      (some GErr.conflict,
        Tx.mk (some [("n1",
          (NodeEntry.mk (NodeInfo.mk "n1" "c1" [] 0 (StorageSize.mk 0 0 0)) ["d1"]).Marshal)])) :=
  ⟨by decide, node_delete_conflict _ _ (by decide)⟩

/-- Claim C6: `NewNodeEntryFromId` returns NotFound exactly when the node
bucket exists but holds no value for the id; an absent bucket gives the
distinct bucket-access error instead of NotFound; and a stored value is
deserialized (yielding the record, or the deserialization error). -/
theorem newNodeEntryFromId_cases (tx : Tx) (id : String) :
    (tx.nodeBucket = none →
      NewNodeEntryFromId tx id =
          Except.error (GErr.bucketAccess "Unable to create node entry") ∧
        NewNodeEntryFromId tx id ≠ Except.error GErr.notFound) ∧
    (∀ b : Bucket, tx.nodeBucket = some b → Bucket.get b id = none →
      NewNodeEntryFromId tx id = Except.error GErr.notFound) ∧
    (∀ (b : Bucket) (val : GobBytes),
      tx.nodeBucket = some b → Bucket.get b id = some val →
      NewNodeEntryFromId tx id = NodeEntry.Unmarshal val) ∧
    (NewNodeEntryFromId tx id = Except.error GErr.notFound ↔
      ∃ b : Bucket, tx.nodeBucket = some b ∧ Bucket.get b id = none) := by
  refine ⟨fun htx => ⟨by simp [NewNodeEntryFromId, htx], by simp [NewNodeEntryFromId, htx]⟩,
    fun b htx hget => by simp [NewNodeEntryFromId, htx, hget],
    fun b val htx hget => by simp [NewNodeEntryFromId, htx, hget],
    ?_⟩
  constructor
  · intro h
    cases htx : tx.nodeBucket with
    | none => simp [NewNodeEntryFromId, htx] at h
    | some b =>
      refine ⟨b, rfl, ?_⟩
      cases hget : Bucket.get b id with
      | none => rfl
      | some val =>
        cases val with
        | bad => simp [NewNodeEntryFromId, NodeEntry.Unmarshal, htx, hget] at h
        | good w => simp [NewNodeEntryFromId, NodeEntry.Unmarshal, htx, hget] at h
  · rintro ⟨b, htx, hget⟩
    simp [NewNodeEntryFromId, htx, hget]

/-- Claim C6, witness: with a transaction whose node bucket holds only the
key `"other"`, looking up `"n1"` is NotFound, looking up `"other"`
deserializes the stored bytes, and the NotFound characterisation holds. -/
theorem newNodeEntryFromId_cases_witness :
    (Tx.mk (some [("other", GobBytes.bad)])).nodeBucket = some [("other", GobBytes.bad)] ∧
    Bucket.get [("other", GobBytes.bad)] "n1" = none ∧
    NewNodeEntryFromId (Tx.mk (some [("other", GobBytes.bad)])) "n1" =
      Except.error GErr.notFound ∧
    NewNodeEntryFromId (Tx.mk (some [("other", GobBytes.bad)])) "other" =
      NodeEntry.Unmarshal GobBytes.bad :=
  ⟨rfl, by decide,
    (newNodeEntryFromId_cases (Tx.mk (some [("other", GobBytes.bad)])) "n1").2.1
      [("other", GobBytes.bad)] rfl (by decide),
    (newNodeEntryFromId_cases (Tx.mk (some [("other", GobBytes.bad)])) "other").2.2.1
      [("other", GobBytes.bad)] GobBytes.bad rfl (by decide)⟩

/-- All keys of a bucket differ from a key whose lookup is `none`. -/
theorem lookup_none_keys (b : Bucket) (k : String)
    (h : List.lookup k b = none) : ∀ p ∈ b, p.1 ≠ k := by
  induction b with
  | nil => intro p hp; cases hp
  | cons q t ih =>
    rw [List.lookup] at h
    cases hbeq : k == q.1 with
    | true => simp [hbeq] at h
    | false =>
      simp only [hbeq] at h
      intro p hp
      rcases List.mem_cons.mp hp with rfl | hmem
      · exact (Ne.symm (by simpa using hbeq))
      · exact ih h p hmem

/-- Bolt's `Delete` on a key that is not in the bucket leaves the bucket
unchanged. -/
theorem bucket_del_absent (b : Bucket) (k : String)
    (h : Bucket.get b k = none) : Bucket.del b k = b := by
  have hk := lookup_none_keys b k h
  apply List.filter_eq_self.mpr
  intro p hp
  simpa using hk p hp

/-- Claim C10: `Delete` on a record with an empty `Devices` sequence does
not check that a value exists for the record's identifier: when the node
bucket exists but holds no value for the id, `Delete` still reports
success (no error, never NotFound) and leaves the store unchanged. -/
theorem node_delete_unsaved (n : NodeEntry) (tx : Tx) (b : Bucket)
    (hdev : n.Devices = []) (htx : tx.nodeBucket = some b)
    (habs : Bucket.get b n.Info.Id = none) :
    n.Delete tx = (none, tx) := by
  cases tx with
  | mk nb =>
    cases htx
    simp [NodeEntry.Delete, hdev, bucket_del_absent b n.Info.Id habs]

/-- Claim C10, witness: deleting the concrete never-saved record `"n1"`
(no devices) against a transaction whose node bucket holds only `"other"`
succeeds and leaves the transaction unchanged. -/
theorem node_delete_unsaved_witness :
    (NodeEntry.mk (NodeInfo.mk "n1" "c1" [] 0 (StorageSize.mk 0 0 0)) []).Devices = [] ∧
    (Tx.mk (some [("other", GobBytes.bad)])).nodeBucket = some [("other", GobBytes.bad)] ∧
    Bucket.get [("other", GobBytes.bad)]
      (NodeEntry.mk (NodeInfo.mk "n1" "c1" [] 0 (StorageSize.mk 0 0 0)) []).Info.Id = none ∧
    (NodeEntry.mk (NodeInfo.mk "n1" "c1" [] 0 (StorageSize.mk 0 0 0)) []).Delete
        (Tx.mk (some [("other", GobBytes.bad)])) =
      (none, Tx.mk (some [("other", GobBytes.bad)])) :=
  ⟨by decide, rfl, by decide,
    node_delete_unsaved _ _ [("other", GobBytes.bad)] (by decide) rfl (by decide)⟩

/-- The accumulator-threading loop of `NewInfoReponse` computes the
spec-side traversal, with the accumulated prefix prepended. -/
theorem resolveDevices_eq_spec {D R : Type} (f : String → Except GErr D)
    (g : D → Except GErr R) :
    ∀ (ids : List String) (acc : List R),
      resolveDevices f g ids acc =
        (resolveDevicesSpec f g ids).map fun rs => acc ++ rs
  | [], acc => by simp [resolveDevices, resolveDevicesSpec, Except.map]
  | id :: rest, acc => by
    cases hf : f id with
    | error e =>
      simp [resolveDevices, resolveDevicesSpec, hf, Except.map, Except.bind]
    | ok d =>
      cases hg : g d with
      | error e =>
        simp [resolveDevices, resolveDevicesSpec, hf, hg, Except.map, Except.bind]
      | ok r =>
        simp only [resolveDevices, resolveDevicesSpec, hf, hg, Except.bind]
        rw [resolveDevices_eq_spec f g rest (acc ++ [r])]
        cases resolveDevicesSpec f g rest with
        | error e => rfl
        | ok rs => simp [Except.map, Except.bind]

/-- Claim C8: `NewInfoReponse` copies `ClusterId`, `Hostnames`, `Id`,
`Storage` and `Zone` from the record and resolves each identifier in
`Devices` in stored order, one projected device view per identifier; the
whole call equals the spec-side traversal `resolveDevicesSpec`, which
aborts with the first resolution or projection error — so on any failure
the error is returned and no partial view is ever produced. -/
theorem node_info_response_spec {D R : Type} (f : String → Except GErr D)
    (g : D → Except GErr R) (n : NodeEntry) :
    n.NewInfoReponse f g =
      (resolveDevicesSpec f g n.Devices).map fun views =>
        NodeInfoResponse.mk n.Info.ClusterId n.Info.Hostnames n.Info.Id
          n.Info.Storage n.Info.Zone views := by
  unfold NodeEntry.NewInfoReponse
  rw [resolveDevices_eq_spec f g n.Devices []]
  cases resolveDevicesSpec f g n.Devices with
  | error e => simp [Except.map]
  | ok rs => simp [Except.map]
